import Mathlib

/-!
Shallow embedding of the sentiment classification engine of
`web_sentiment_dashboard.py` and proofs about it.

Modelling conventions:
* A pandas `NaN` rating (the result of `pd.to_numeric(..., errors="coerce")`
  on an unparseable rating) is `none : Option ℚ`; a present rating is
  `some r`.  Python comparisons `NaN >= 4` and `NaN <= 2` are `False`,
  which the helpers `ratingGe` / `ratingLe` reproduce, and arithmetic on
  `NaN` yields `NaN`, which `Option.map` reproduces.
* A missing `review_content` cell is `none : Option String`.  The code
  reaches the classifier through `str(row["review_content"])`, which turns
  a missing cell into the literal string `"nan"` (`contentStr`), while
  `df["review_content"].str.len()` keeps it missing (`Option.map`).
* Python `/` raising `ZeroDivisionError` is `Except.error`.
* Text is handled as `List Char`; `str.lower()` is `Char.toLower` mapped
  over the characters, and Python `word in content` is the boolean
  substring scan `subB`.
-/

/-- Sentiment labels produced by `analyze_sentiment`. -/
inductive Sentiment where
  | Positive
  | Negative
  | Neutral
deriving DecidableEq, Repr

/-- `str(...).lower()` applied to a text, as a character list. -/
def lowerChars (s : String) : List Char := s.toList.map Char.toLower

/-- Boolean prefix test on character lists. -/
def prefB : List Char → List Char → Bool
  | [], _ => true
  | _ :: _, [] => false
  | a :: as, b :: bs => a == b && prefB as bs

/-- Python `w in content` (substring containment): `w` occurs contiguously
somewhere inside `content`. -/
def subB (w : List Char) : List Char → Bool
  | [] => prefB w []
  | c :: rest => prefB w (c :: rest) || subB w rest

/-- The `positive_words` list of `analyze_sentiment`. -/
def POSITIVE_WORDS : List String :=
  ["good", "great", "excellent", "amazing", "love",
   "perfect", "best", "awesome", "satisfied", "recommend"]

/-- The `negative_words` list of `analyze_sentiment`. -/
def NEGATIVE_WORDS : List String :=
  ["bad", "terrible", "awful", "hate", "worst",
   "poor", "disappointed", "useless", "defective", "broken"]

/-- `sum(1 for word in lex if word in content)`. -/
def wordCount (lex : List String) (content : List Char) : Nat :=
  lex.countP (fun w => subB w.toList content)

/-- Python `rating >= q` where `rating` may be `NaN` (`none`): a missing
rating compares `False` against every threshold. -/
def ratingGe (rating : Option ℚ) (q : ℚ) : Bool :=
  match rating with
  | none => false
  | some r => decide (q ≤ r)

/-- Python `rating <= q` where `rating` may be `NaN` (`none`). -/
def ratingLe (rating : Option ℚ) (q : ℚ) : Bool :=
  match rating with
  | none => false
  | some r => decide (r ≤ q)

/-- `analyze_sentiment` from the source: the three-way label rule over the
coerced numeric rating and the lowercased review content. -/
def analyze_sentiment (rating : Option ℚ) (content : String) : Sentiment :=
  let c := lowerChars content
  let pos_count := wordCount POSITIVE_WORDS c
  let neg_count := wordCount NEGATIVE_WORDS c
  if ratingGe rating 4 && decide (pos_count > neg_count) then .Positive
  else if ratingLe rating 2 || decide (neg_count > pos_count) then .Negative
  else .Neutral

/-- The label rule exactly as §4.2 of the spec words it (spec side of the
refinement): `pos_count` and `neg_count` are the numbers of lexicon words
present as substrings of the lowercased text, and the three rules are
evaluated in order, first match wins. -/
def specLabel (rating : Option ℚ) (text : String) : Sentiment :=
  let pos_count :=
    POSITIVE_WORDS.countP (fun w => decide (w.toList <:+: lowerChars text))
  let neg_count :=
    NEGATIVE_WORDS.countP (fun w => decide (w.toList <:+: lowerChars text))
  if ratingGe rating 4 && decide (pos_count > neg_count) then .Positive
  else if ratingLe rating 2 || decide (neg_count > pos_count) then .Negative
  else .Neutral

/-- `sentiment_score` from the source.  Arithmetic on a missing (`NaN`)
rating propagates the missing value, via `Option.map`. -/
def sentiment_score (rating : Option ℚ) (s : Sentiment) : Option ℚ :=
  match s with
  | .Positive => rating.map (fun r => r / 5)
  | .Negative => rating.map (fun r => (5 - r) / 5 * (-1))
  | .Neutral => some 0

/-- One input row, after `pd.to_numeric` has coerced the rating. -/
structure Review where
  rating : Option ℚ
  review_content : Option String
  category : String
  product_id : String
deriving DecidableEq, Repr

/-- A row after `load_and_process_data` has attached the derived columns. -/
structure AnnotatedReview where
  rating : Option ℚ
  review_content : Option String
  category : String
  product_id : String
  review_length : Option Nat
  sentiment : Sentiment
  sentiment_score : Option ℚ
deriving DecidableEq, Repr

/-- Python `str(cell)` on a possibly missing text cell: a missing cell
prints as the string `"nan"`. -/
def contentStr (t : Option String) : String := t.getD "nan"

/-- The per-row work of `load_and_process_data`: `review_length` via
`.str.len()` (missing text stays missing), then the sentiment label, then
the sentiment score. -/
def annotateReview (r : Review) : AnnotatedReview :=
  let s := analyze_sentiment r.rating (contentStr r.review_content)
  { rating := r.rating
    review_content := r.review_content
    category := r.category
    product_id := r.product_id
    review_length := r.review_content.map (fun t => t.length)
    sentiment := s
    sentiment_score := sentiment_score r.rating s }

/-- `load_and_process_data` over an already-parsed record list. -/
def load_and_process (rs : List Review) : List AnnotatedReview :=
  rs.map annotateReview

/-- `df["sentiment"].value_counts()` read off for one label, i.e.
`sentiment_counts.get(lbl, 0)`. -/
def countLabel (l : Sentiment) (rs : List AnnotatedReview) : Nat :=
  rs.countP (fun a => decide (a.sentiment = l))

/-- Python division of two numbers, raising `ZeroDivisionError` on a zero
denominator. -/
def pydiv (a b : ℚ) : Except String ℚ :=
  if b = 0 then .error "ZeroDivisionError" else .ok (a / b)

/-- One percentage line of the Detailed Summary block:
`sentiment_counts.get(lbl, 0) / total_reviews * 100`. -/
def summaryPct (l : Sentiment) (rs : List AnnotatedReview) : Except String ℚ :=
  (pydiv (countLabel l rs) rs.length).map (fun x => x * 100)

/-- `Series.mean()`: `NaN` (`none`) on an empty series, otherwise the sum
divided by the length. -/
def seriesMean (xs : List ℚ) : Option ℚ :=
  if xs.length = 0 then none else some (xs.sum / xs.length)

/-- `(df["sentiment"] == "Positive").mean() * 100`, the Satisfaction Rate
metric. -/
def positive_pct (rs : List AnnotatedReview) : Option ℚ :=
  (seriesMean (rs.map (fun a => if a.sentiment = .Positive then 1 else 0))).map
    (fun m => m * 100)

/-- `category.split("|")[0]`: the characters before the first pipe. -/
def topCategory (c : String) : String :=
  String.mk (c.toList.takeWhile (fun ch => ch != '|'))

/-- The distinct top-level categories of a record list, in first-seen
order. -/
def distinctCategories (rs : List AnnotatedReview) : List String :=
  (rs.map (fun a => topCategory a.category)).dedup

/-- The defined (non-`NaN`) sentiment scores of the records in one
top-level category; `groupby(...).mean()` skips missing values. -/
def groupScores (rs : List AnnotatedReview) (c : String) : List ℚ :=
  (rs.filter (fun a => decide (topCategory a.category = c))).filterMap
    (fun a => a.sentiment_score)

/-- The mean sentiment score of one top-level category (`NaN` when the
category has no defined score). -/
def catMean (rs : List AnnotatedReview) (c : String) : Option ℚ :=
  seriesMean (groupScores rs c)

/-- `df.groupby(top category)["sentiment_score"].mean()` as an association
list, keeping only the entries whose mean is defined. -/
def catMeans (rs : List AnnotatedReview) : List (String × ℚ) :=
  (distinctCategories rs).filterMap
    (fun c => (catMean rs c).map (fun m => (c, m)))

/-- Left fold keeping the first entry with the maximal value. -/
def argmaxAux (best : String × ℚ) : List (String × ℚ) → String × ℚ
  | [] => best
  | p :: rest => argmaxAux (if best.2 < p.2 then p else best) rest

/-- Left fold keeping the first entry with the minimal value. -/
def argminAux (best : String × ℚ) : List (String × ℚ) → String × ℚ
  | [] => best
  | p :: rest => argminAux (if p.2 < best.2 then p else best) rest

/-- `Series.idxmax()`: the label of the first maximal entry; an error when
no entry has a defined value. -/
def idxmaxE : List (String × ℚ) → Except String String
  | [] => .error "EmptyInputError"
  | p :: rest => .ok (argmaxAux p rest).1

/-- `Series.idxmin()`: the label of the first minimal entry; an error when
no entry has a defined value. -/
def idxminE : List (String × ℚ) → Except String String
  | [] => .error "EmptyInputError"
  | p :: rest => .ok (argminAux p rest).1

/-- The Category Insights computation: most positive category via
`idxmax`, most critical via `idxmin`, over the per-category mean
sentiment scores. -/
def extremal_categories (rs : List AnnotatedReview) :
    Except String (String × String) :=
  match idxmaxE (catMeans rs), idxminE (catMeans rs) with
  | .ok mp, .ok mc => .ok (mp, mc)
  | _, _ => .error "EmptyInputError"

/-- A small concrete record list used to exercise the theorems: a
five-star positive review in category `A` and a one-star negative review
in category `B`. -/
def sampleReviews : List Review :=
  [⟨some 5, some "great product", "A|x", "p1"⟩,
   ⟨some 1, some "terrible", "B|y", "p2"⟩]

/-- The sample record list after annotation. -/
def sampleAnnotated : List AnnotatedReview := load_and_process sampleReviews

/-! ## Substring matching -/

/-- `prefB` decides the prefix relation on character lists. -/
lemma prefB_iff (w : List Char) : ∀ s : List Char, prefB w s = true ↔ w <+: s := by
  induction w with
  | nil => intro s; simp [prefB]
  | cons a as ih =>
    intro s
    cases s with
    | nil => simp [prefB]
    | cons b bs =>
      simp [prefB, List.cons_prefix_cons, ih, and_comm]

/-- `subB` decides the substring (infix) relation on character lists. -/
lemma subB_iff (w : List Char) : ∀ s : List Char, subB w s = true ↔ w <:+: s := by
  intro s
  induction s with
  | nil => simp [subB, prefB_iff, List.infix_nil, List.prefix_nil]
  | cons c rest ih =>
    simp [subB, prefB_iff, ih, List.infix_cons_iff]

/-- `wordCount` counts exactly the lexicon words occurring as substrings. -/
lemma wordCount_eq_substr (lex : List String) (c : List Char) :
    wordCount lex c = lex.countP (fun w => decide (w.toList <:+: c)) := by
  refine List.countP_congr ?_
  intro w _
  simp [subB_iff]

/-! ## Claims about the classifier rule -/

/-- C1: for every input pair, `analyze_sentiment` assigns the label by the
ordered rule of the spec — Positive if the rating comparison `>= 4` holds
and `pos_count > neg_count`; else Negative if the rating comparison
`<= 2` holds or `neg_count > pos_count`; else Neutral — where `pos_count`
and `neg_count` are the lexicon substring counts of the lowercased text
(and a missing rating compares false). -/
theorem claim1_label_rule (rating : Option ℚ) (text : String) :
    analyze_sentiment rating text = specLabel rating text := by
  unfold analyze_sentiment specLabel
  simp only [wordCount_eq_substr]

/-- C5: the lexicon counts are substring-based and case-insensitive — each
count is the number of lexicon words occurring as substrings (list
infixes) of the lowercased text, and a word inside a longer word still
counts, e.g. `awesome` inside `Awesomesauce`. -/
theorem claim5_substring_matching :
    (∀ text : String,
      wordCount POSITIVE_WORDS (lowerChars text) =
        POSITIVE_WORDS.countP (fun w => decide (w.toList <:+: lowerChars text)) ∧
      wordCount NEGATIVE_WORDS (lowerChars text) =
        NEGATIVE_WORDS.countP (fun w => decide (w.toList <:+: lowerChars text))) ∧
    "awesome".toList <:+: lowerChars "Awesomesauce" ∧
    wordCount POSITIVE_WORDS (lowerChars "Awesomesauce") = 1 := by
  refine ⟨fun text => ⟨wordCount_eq_substr _ _, wordCount_eq_substr _ _⟩, by decide, by decide⟩

/-- C6: the classifier is deterministic and pure — the label and the score
attached to a record depend on its rating and text only, never on any
other field or hidden state. -/
theorem claim6_determinism (r1 r2 : Review)
    (hr : r1.rating = r2.rating) (ht : r1.review_content = r2.review_content) :
    (annotateReview r1).sentiment = (annotateReview r2).sentiment ∧
    (annotateReview r1).sentiment_score = (annotateReview r2).sentiment_score := by
  simp [annotateReview, hr, ht]

/-- Witness for C6: two records equal in rating and text but different in
category and product id get the same label and score. -/
theorem claim6_witness :
    (annotateReview ⟨some 5, some "great product", "A|x", "p1"⟩).sentiment =
      (annotateReview ⟨some 5, some "great product", "B|y", "p2"⟩).sentiment ∧
    (annotateReview ⟨some 5, some "great product", "A|x", "p1"⟩).sentiment_score =
      (annotateReview ⟨some 5, some "great product", "B|y", "p2"⟩).sentiment_score :=
  claim6_determinism _ _ rfl rfl

/-! ## Characterizing the label rule -/

/-- The label rule with its Boolean conditions turned into propositions. -/
lemma analyze_sentiment_cases (rating : Option ℚ) (text : String) :
    analyze_sentiment rating text =
      if ratingGe rating 4 = true ∧
          wordCount NEGATIVE_WORDS (lowerChars text) <
            wordCount POSITIVE_WORDS (lowerChars text) then .Positive
      else if ratingLe rating 2 = true ∨
          wordCount POSITIVE_WORDS (lowerChars text) <
            wordCount NEGATIVE_WORDS (lowerChars text) then .Negative
      else .Neutral := by
  unfold analyze_sentiment
  simp only [Bool.and_eq_true, Bool.or_eq_true, decide_eq_true_eq, gt_iff_lt]

/-- A present rating satisfies `ratingGe` exactly when it clears the
threshold. -/
lemma ratingGe_true_iff (rating : Option ℚ) (q : ℚ) :
    ratingGe rating q = true ↔ ∃ r, rating = some r ∧ q ≤ r := by
  cases rating <;> simp [ratingGe]

/-- A present rating satisfies `ratingLe` exactly when it is below the
threshold. -/
lemma ratingLe_true_iff (rating : Option ℚ) (q : ℚ) :
    ratingLe rating q = true ↔ ∃ r, rating = some r ∧ r ≤ q := by
  cases rating <;> simp [ratingLe]

/-- The label is Positive exactly when the first rule fires. -/
lemma label_pos_iff (rating : Option ℚ) (text : String) :
    analyze_sentiment rating text = .Positive ↔
      ratingGe rating 4 = true ∧
      wordCount NEGATIVE_WORDS (lowerChars text) <
        wordCount POSITIVE_WORDS (lowerChars text) := by
  rw [analyze_sentiment_cases]
  split_ifs with h1 h2 <;> simp_all

/-! ## Scores (C2) -/

/-- C2 counterexample: at rating 5 with text `"terrible"` the label is
Negative but the score is 0, so a Negative label does not imply a
strictly negative score. -/
theorem claim2_counterexample :
    analyze_sentiment (some 5) "terrible" = .Negative ∧
    sentiment_score (some 5) (analyze_sentiment (some 5) "terrible") = some 0 ∧
    ¬ ∃ q : ℚ, sentiment_score (some 5) (analyze_sentiment (some 5) "terrible") =
        some q ∧ q < 0 := by
  refine ⟨by decide, by with_unfolding_all rfl, ?_⟩
  rintro ⟨q, hq, hlt⟩
  rw [show sentiment_score (some 5) (analyze_sentiment (some 5) "terrible") = some 0
      from by with_unfolding_all rfl] at hq
  rw [Option.some_inj] at hq
  rw [← hq] at hlt
  exact absurd hlt (by norm_num)

/-- C2 (amended): for a present rating in [1,5] the score formulas are as
specified; a Positive label gives a score in (0, 1]; a Neutral label gives
score 0; a Negative label gives a score in [-1, 0] — nonpositive rather
than strictly negative, with score 0 exactly when the rating is 5. -/
theorem claim2_amended_scores (r : ℚ) (text : String) (h1 : 1 ≤ r) (h5 : r ≤ 5) :
    (analyze_sentiment (some r) text = .Positive →
      sentiment_score (some r) .Positive = some (r / 5) ∧
      0 < r / 5 ∧ r / 5 ≤ 1) ∧
    (analyze_sentiment (some r) text = .Negative →
      sentiment_score (some r) .Negative = some ((5 - r) / 5 * (-1)) ∧
      -1 ≤ (5 - r) / 5 * (-1) ∧ (5 - r) / 5 * (-1) ≤ 0 ∧
      ((5 - r) / 5 * (-1) = 0 ↔ r = 5)) ∧
    sentiment_score (some r) .Neutral = some 0 := by
  refine ⟨?_, ?_, rfl⟩
  · intro hp
    obtain ⟨hge, -⟩ := (label_pos_iff (some r) text).mp hp
    obtain ⟨r2, hr2, h4⟩ := (ratingGe_true_iff (some r) 4).mp hge
    rw [Option.some_inj] at hr2
    subst hr2
    refine ⟨rfl, by positivity, by linarith⟩
  · intro _
    refine ⟨rfl, by linarith, by linarith, ?_⟩
    constructor <;> intro h <;> linarith

/-- Witness for C2 (amended), at rating 5 with text `"great"`: the label
is Positive and the score facts hold there. -/
theorem claim2_amended_witness :
    sentiment_score (some 5) .Positive = some (5 / 5) ∧
    (0:ℚ) < 5 / 5 ∧ (5:ℚ) / 5 ≤ 1 :=
  (claim2_amended_scores 5 "great" (by norm_num) (by norm_num)).1 (by decide)

/-! ## Missing ratings (C3) -/

/-- C3 counterexample: with a missing rating and text `"terrible"` the
label is Negative and the score is the missing value `NaN` (`none`), not
0.0. -/
theorem claim3_counterexample :
    analyze_sentiment none "terrible" = .Negative ∧
    sentiment_score none (analyze_sentiment none "terrible") = none ∧
    sentiment_score none (analyze_sentiment none "terrible") ≠ some 0 := by
  have h : sentiment_score none (analyze_sentiment none "terrible") = none := by
    with_unfolding_all rfl
  exact ⟨by decide, h, by rw [h]; simp⟩

/-- C3 (amended): with the rating missing every rating comparison is
false, so the label is never Positive and is Negative exactly when the
negative count exceeds the positive count; the score is 0.0 when the
label is Neutral but missing (`NaN`) when the label is Negative; the
scenario rating=missing, text="great product" yields Neutral with score
0.0. -/
theorem claim3_amended_missing_rating (text : String) :
    analyze_sentiment none text ≠ .Positive ∧
    (analyze_sentiment none text = .Negative ↔
      wordCount POSITIVE_WORDS (lowerChars text) <
        wordCount NEGATIVE_WORDS (lowerChars text)) ∧
    (analyze_sentiment none text = .Neutral →
      sentiment_score none (analyze_sentiment none text) = some 0) ∧
    (analyze_sentiment none text = .Negative →
      sentiment_score none (analyze_sentiment none text) = none) ∧
    analyze_sentiment none "great product" = .Neutral ∧
    sentiment_score none (analyze_sentiment none "great product") = some 0 := by
  have hcases := analyze_sentiment_cases none text
  simp only [ratingGe, ratingLe, Bool.false_eq_true, false_and, false_or,
    if_false] at hcases
  refine ⟨?_, ?_, ?_, ?_, by decide, by with_unfolding_all rfl⟩
  · rw [hcases]; split <;> simp
  · rw [hcases]; split_ifs with h <;> simp [h]
  · intro h; rw [h]; rfl
  · intro h; rw [h]; rfl

/-- Witness for C3 (amended), applying it at the text `"bad item"` where
the negative count exceeds the positive count. -/
theorem claim3_amended_witness :
    analyze_sentiment none "bad item" = .Negative :=
  (claim3_amended_missing_rating "bad item").2.1.mpr (by decide)

/-! ## The Positive invariant (C10) -/

/-- C10: a Positive label forces a present rating of at least 4 together
with strictly more positive than negative substring hits, and for a
rating within the declared domain the Positive score lies in [4/5, 1]. -/
theorem claim10_positive_invariant (rating : Option ℚ) (text : String)
    (hp : analyze_sentiment rating text = .Positive) :
    ∃ r : ℚ, rating = some r ∧ 4 ≤ r ∧
      wordCount NEGATIVE_WORDS (lowerChars text) <
        wordCount POSITIVE_WORDS (lowerChars text) ∧
      (r ≤ 5 → sentiment_score rating .Positive = some (r / 5) ∧
        4 / 5 ≤ r / 5 ∧ r / 5 ≤ 1) := by
  obtain ⟨hge, hcnt⟩ := (label_pos_iff rating text).mp hp
  obtain ⟨r, hr, h4⟩ := (ratingGe_true_iff rating 4).mp hge
  subst hr
  exact ⟨r, rfl, h4, hcnt,
    fun h5 => ⟨rfl, by linarith, by linarith⟩⟩

/-- Witness for C10, at rating 5 with text `"great product"`. -/
theorem claim10_witness :
    ∃ r : ℚ, (some (5:ℚ)) = some r ∧ 4 ≤ r ∧
      wordCount NEGATIVE_WORDS (lowerChars "great product") <
        wordCount POSITIVE_WORDS (lowerChars "great product") ∧
      (r ≤ 5 → sentiment_score (some (5:ℚ)) .Positive = some (r / 5) ∧
        4 / 5 ≤ r / 5 ∧ r / 5 ≤ 1) :=
  claim10_positive_invariant (some 5) "great product" (by decide)

/-! ## Text length (C8) -/

/-- C8 counterexample: a record with an absent text gets a missing
(`NaN`) `review_length`, not 0. -/
theorem claim8_counterexample :
    (annotateReview ⟨some 4, none, "A|x", "p1"⟩).review_length = none ∧
    (annotateReview ⟨some 4, none, "A|x", "p1"⟩).review_length ≠ some 0 := by
  constructor
  · rfl
  · simp [annotateReview]

/-- C8 (amended): `review_length` is the character count of the text when
the text is present, and is the missing value (`NaN`, from `.str.len()`)
— not 0 — when the text is absent. -/
theorem claim8_amended_text_length (r : Review) :
    (∀ t : String, r.review_content = some t →
      (annotateReview r).review_length = some t.length) ∧
    (r.review_content = none → (annotateReview r).review_length = none) := by
  constructor
  · intro t ht; simp [annotateReview, ht]
  · intro ht; simp [annotateReview, ht]

/-- Witness for C8 (amended), on a record whose text has 13 characters. -/
theorem claim8_amended_witness :
    (annotateReview ⟨some 5, some "great product", "A|x", "p1"⟩).review_length =
      some ("great product".length) :=
  (claim8_amended_text_length ⟨some 5, some "great product", "A|x", "p1"⟩).1
    "great product" rfl

/-! ## Empty-input behaviour of the aggregations (C4) -/

/-- C4 counterexample: on an empty record list the Detailed Summary
percentage computation divides the zero count by the zero total and
raises `ZeroDivisionError` instead of returning a no-data indicator. -/
theorem claim4_counterexample :
    summaryPct .Positive [] = .error "ZeroDivisionError" := rfl

/-- C4 (amended): on an empty record list every label count is 0 and the
Satisfaction Rate mean is the missing value, but the Detailed Summary
percentage raises a division-by-zero error rather than returning a
no-data indicator; on a non-empty list each percentage is well defined. -/
theorem claim4_amended_empty_input (rs : List AnnotatedReview) :
    (rs = [] →
      countLabel .Positive rs = 0 ∧ countLabel .Neutral rs = 0 ∧
      countLabel .Negative rs = 0 ∧
      summaryPct .Positive rs = .error "ZeroDivisionError" ∧
      positive_pct rs = none) ∧
    (rs ≠ [] → ∀ l : Sentiment, ∃ q : ℚ, summaryPct l rs = .ok q) := by
  constructor
  · rintro rfl
    exact ⟨rfl, rfl, rfl, rfl, rfl⟩
  · intro h l
    have hlen0 : rs.length ≠ 0 := by simpa [List.length_eq_zero] using h
    have hlen : (rs.length : ℚ) ≠ 0 := Nat.cast_ne_zero.mpr hlen0
    exact ⟨(countLabel l rs : ℚ) / rs.length * 100,
      by simp [summaryPct, pydiv, hlen, Except.map]⟩

/-- Witness for C4 (amended), at the empty record list. -/
theorem claim4_amended_witness :
    countLabel .Positive [] = 0 ∧ countLabel .Neutral [] = 0 ∧
    countLabel .Negative [] = 0 ∧
    summaryPct .Positive [] = .error "ZeroDivisionError" ∧
    positive_pct [] = none :=
  (claim4_amended_empty_input []).1 rfl

/-! ## The label distribution (C7) -/

/-- Every record carries exactly one of the three labels, so the three
counts partition the list. -/
lemma countLabel_sum (rs : List AnnotatedReview) :
    countLabel .Positive rs + countLabel .Neutral rs +
      countLabel .Negative rs = rs.length := by
  induction rs with
  | nil => rfl
  | cons a l ih =>
    simp only [countLabel, List.countP_cons, List.length_cons] at *
    rcases ha : a.sentiment <;> simp [ha] <;> omega

/-- C7: the per-label counts sum exactly to the number of records, and on
a non-empty list the three Detailed Summary percentages are defined and
sum exactly to 100. -/
theorem claim7_distribution (rs : List AnnotatedReview) :
    countLabel .Positive rs + countLabel .Neutral rs +
      countLabel .Negative rs = rs.length ∧
    (rs ≠ [] → ∃ p n g : ℚ,
      summaryPct .Positive rs = .ok p ∧ summaryPct .Neutral rs = .ok n ∧
      summaryPct .Negative rs = .ok g ∧ p + n + g = 100) := by
  refine ⟨countLabel_sum rs, ?_⟩
  intro h
  have hlen0 : rs.length ≠ 0 := by simpa [List.length_eq_zero] using h
  have hlen : (rs.length : ℚ) ≠ 0 := Nat.cast_ne_zero.mpr hlen0
  refine ⟨(countLabel .Positive rs : ℚ) / rs.length * 100,
    (countLabel .Neutral rs : ℚ) / rs.length * 100,
    (countLabel .Negative rs : ℚ) / rs.length * 100,
    by simp [summaryPct, pydiv, hlen, Except.map],
    by simp [summaryPct, pydiv, hlen, Except.map],
    by simp [summaryPct, pydiv, hlen, Except.map], ?_⟩
  have hsum : (countLabel .Positive rs : ℚ) + countLabel .Neutral rs +
      countLabel .Negative rs = (rs.length : ℚ) := by
    exact_mod_cast countLabel_sum rs
  field_simp
  linarith

/-- Witness for C7, on the two-record sample list. -/
theorem claim7_witness :
    countLabel .Positive sampleAnnotated + countLabel .Neutral sampleAnnotated +
      countLabel .Negative sampleAnnotated = sampleAnnotated.length ∧
    ∃ p n g : ℚ,
      summaryPct .Positive sampleAnnotated = .ok p ∧
      summaryPct .Neutral sampleAnnotated = .ok n ∧
      summaryPct .Negative sampleAnnotated = .ok g ∧ p + n + g = 100 :=
  ⟨(claim7_distribution sampleAnnotated).1,
   (claim7_distribution sampleAnnotated).2 (by decide)⟩

/-! ## Extremal categories (C9) -/

/-- `argmaxAux` returns the running best or a list entry, is at least the
running best, and is at least every list entry. -/
lemma argmaxAux_spec (l : List (String × ℚ)) : ∀ best : String × ℚ,
    (argmaxAux best l = best ∨ argmaxAux best l ∈ l) ∧
    best.2 ≤ (argmaxAux best l).2 ∧
    ∀ p ∈ l, p.2 ≤ (argmaxAux best l).2 := by
  induction l with
  | nil => intro best; simp [argmaxAux]
  | cons q rest ih =>
    intro best
    simp only [argmaxAux]
    by_cases h : best.2 < q.2
    · simp only [if_pos h]
      obtain ⟨hm, hle, hall⟩ := ih q
      refine ⟨?_, le_trans (le_of_lt h) hle, ?_⟩
      · rcases hm with hm | hm
        · exact Or.inr (by rw [hm]; exact List.mem_cons_self q rest)
        · exact Or.inr (List.mem_cons_of_mem q hm)
      · intro p hp
        rcases List.mem_cons.mp hp with rfl | hp
        · exact hle
        · exact hall p hp
    · simp only [if_neg h]
      obtain ⟨hm, hle, hall⟩ := ih best
      refine ⟨?_, hle, ?_⟩
      · rcases hm with hm | hm
        · exact Or.inl hm
        · exact Or.inr (List.mem_cons_of_mem q hm)
      · intro p hp
        rcases List.mem_cons.mp hp with rfl | hp
        · exact le_trans (le_of_not_lt h) hle
        · exact hall p hp

/-- `argminAux` returns the running best or a list entry, is at most the
running best, and is at most every list entry. -/
lemma argminAux_spec (l : List (String × ℚ)) : ∀ best : String × ℚ,
    (argminAux best l = best ∨ argminAux best l ∈ l) ∧
    (argminAux best l).2 ≤ best.2 ∧
    ∀ p ∈ l, (argminAux best l).2 ≤ p.2 := by
  induction l with
  | nil => intro best; simp [argminAux]
  | cons q rest ih =>
    intro best
    simp only [argminAux]
    by_cases h : q.2 < best.2
    · simp only [if_pos h]
      obtain ⟨hm, hle, hall⟩ := ih q
      refine ⟨?_, le_trans hle (le_of_lt h), ?_⟩
      · rcases hm with hm | hm
        · exact Or.inr (by rw [hm]; exact List.mem_cons_self q rest)
        · exact Or.inr (List.mem_cons_of_mem q hm)
      · intro p hp
        rcases List.mem_cons.mp hp with rfl | hp
        · exact hle
        · exact hall p hp
    · simp only [if_neg h]
      obtain ⟨hm, hle, hall⟩ := ih best
      refine ⟨?_, hle, ?_⟩
      · rcases hm with hm | hm
        · exact Or.inl hm
        · exact Or.inr (List.mem_cons_of_mem q hm)
      · intro p hp
        rcases List.mem_cons.mp hp with rfl | hp
        · exact le_trans hle (le_of_not_lt h)
        · exact hall p hp

/-- C9: with zero distinct categories the extremal-categories computation
fails with the empty-input error; when it succeeds, the first component
has the greatest per-category mean sentiment score and the second the
least, among the categories with a defined mean. -/
theorem claim9_extremal_categories (rs : List AnnotatedReview) :
    (distinctCategories rs = [] →
      extremal_categories rs = .error "EmptyInputError") ∧
    (∀ mp mc, extremal_categories rs = .ok (mp, mc) →
      (∃ m, (mp, m) ∈ catMeans rs ∧ ∀ p ∈ catMeans rs, p.2 ≤ m) ∧
      (∃ m, (mc, m) ∈ catMeans rs ∧ ∀ p ∈ catMeans rs, m ≤ p.2)) := by
  constructor
  · intro h
    have hcm : catMeans rs = [] := by simp [catMeans, h]
    simp [extremal_categories, hcm, idxmaxE, idxminE]
  · intro mp mc h
    rcases hcm : catMeans rs with _ | ⟨q, rest⟩
    · simp [extremal_categories, hcm, idxmaxE, idxminE] at h
    · obtain ⟨hmax1, hmax2, hmax3⟩ := argmaxAux_spec rest q
      obtain ⟨hmin1, hmin2, hmin3⟩ := argminAux_spec rest q
      simp only [extremal_categories, hcm, idxmaxE, idxminE,
        Except.ok.injEq, Prod.mk.injEq] at h
      obtain ⟨hmp, hmc⟩ := h
      have hmemmax : argmaxAux q rest ∈ q :: rest := by
        rcases hmax1 with h1 | h1
        · rw [h1]; exact List.mem_cons_self q rest
        · exact List.mem_cons_of_mem q h1
      have hmemmin : argminAux q rest ∈ q :: rest := by
        rcases hmin1 with h1 | h1
        · rw [h1]; exact List.mem_cons_self q rest
        · exact List.mem_cons_of_mem q h1
      constructor
      · refine ⟨(argmaxAux q rest).2, ?_, ?_⟩
        · rw [← hmp]
          simpa using hmemmax
        · intro p hp
          rcases List.mem_cons.mp hp with rfl | hp
          · exact hmax2
          · exact hmax3 p hp
      · refine ⟨(argminAux q rest).2, ?_, ?_⟩
        · rw [← hmc]
          simpa using hmemmin
        · intro p hp
          rcases List.mem_cons.mp hp with rfl | hp
          · exact hmin2
          · exact hmin3 p hp

/-- Witness for C9, on the two-record sample list: category `A` (mean
score 1) is most positive and category `B` (mean score -4/5) is most
critical. -/
theorem claim9_witness :
    extremal_categories sampleAnnotated = .ok ("A", "B") ∧
    (∃ m, ("A", m) ∈ catMeans sampleAnnotated ∧
      ∀ p ∈ catMeans sampleAnnotated, p.2 ≤ m) :=
  ⟨by with_unfolding_all rfl,
   (((claim9_extremal_categories sampleAnnotated).2 "A" "B")
     (by with_unfolding_all rfl)).1⟩
